import Mathlib

/-!
Verification of the g16 streaming circuit compiler against its specification.

The definitions below are shallow embeddings of the Rust sources:
  src/g16/src/modes/credit.rs        (CreditCollectionMode, U24 credits)
  src/g16gen/src/modes/fanout_ctr.rs (FanoutCounter, u16 fanout)
  src/g16gen/src/modes/translate.rs  (TranslationMode, gate lowering)
  src/g16gen/src/passes/credits.rs   (run_credits_pass post-processing)
  src/g16gen/src/u24.rs              (U24 little-endian 3-byte integer)
  src/g16check/src/main.rs           (independent checker)
Machine integers are modelled as Nat, with explicit modular arithmetic where
the source can overflow.  Rust panics are modelled as Option.none.
-/

namespace G16

/-- Comparison of two unsigned machine integers, as performed by the derived
Ord instances on u8 and u32 in Rust: Less, Equal or Greater by numeric order. -/
def rustCmp (a b : Nat) : Ordering :=
  if a < b then .lt else if a = b then .eq else .gt

/-- Model of the then_with combinator on core::cmp::Ordering: keep the first
comparison result unless it is Equal, in which case use the second one. -/
def ordThen (o p : Ordering) : Ordering :=
  match o with
  | .eq => p
  | x => x

/-- U24 from src/g16gen/src/u24.rs (also vendored in src/g16/src/u24.rs): a
24-bit unsigned integer stored as three little-endian bytes [LSB, middle, MSB].
Bytes are modelled as Nat; a value is well-formed when every byte fits in u8. -/
structure U24 where
  b0 : Nat
  b1 : Nat
  b2 : Nat
deriving DecidableEq, Repr

/-- Well-formedness of a modelled U24: each stored byte fits in a u8. -/
def U24.Wf (x : U24) : Prop :=
  x.b0 < 256 ∧ x.b1 < 256 ∧ x.b2 < 256

/-- U24::MAX. -/
def U24.MAX : Nat := 0xFFFFFF

/-- U24::to_u32: u32::from_le_bytes([b0, b1, b2, 0]). -/
def U24.to_u32 (x : U24) : Nat :=
  x.b0 + 256 * x.b1 + 65536 * x.b2

/-- U24::from_u32: keep the three low little-endian bytes of the u32 value. -/
def U24.from_u32 (value : Nat) : U24 :=
  ⟨value % 256, value / 256 % 256, value / 65536 % 256⟩

/-- From u16 for U24: the two little-endian bytes of the u16 and a zero
top byte. -/
def U24.from_u16 (value : Nat) : U24 :=
  ⟨value % 256, value / 256 % 256, 0⟩

/-- U24::checked_add.  On byte-well-formed values the inner u32 checked
addition in the source can never overflow u32 (both operands are below 2^24),
so it is modelled as plain addition; the result is None exactly when the sum
exceeds U24::MAX. -/
def U24.checked_add (x y : U24) : Option U24 :=
  let result := x.to_u32 + y.to_u32
  if result > U24.MAX then none else some (U24.from_u32 result)

/-- Ord for U24 (src/g16gen/src/u24.rs, impl Ord): compare the bytes from MSB
to LSB, chaining with then_with. -/
def U24.cmp (x y : U24) : Ordering :=
  ordThen (rustCmp x.b2 y.b2) (ordThen (rustCmp x.b1 y.b1) (rustCmp x.b0 y.b0))

lemma u24_from_u32_wf (v : Nat) : (U24.from_u32 v).Wf := by
  refine ⟨?_, ?_, ?_⟩ <;> simp [U24.from_u32] <;> omega

lemma u24_to_u32_from_u32 (v : Nat) (hv : v ≤ 0xFFFFFF) :
    (U24.from_u32 v).to_u32 = v := by
  simp only [U24.from_u32, U24.to_u32]
  omega

lemma u24_to_u32_from_u16 (v : Nat) (hv : v ≤ 65535) :
    (U24.from_u16 v).to_u32 = v := by
  simp only [U24.from_u16, U24.to_u32]
  omega

lemma u24_cmp_eq_rustCmp (a b : U24) (ha : a.Wf) (hb : b.Wf) :
    U24.cmp a b = rustCmp a.to_u32 b.to_u32 := by
  obtain ⟨a0, a1, a2⟩ := a
  obtain ⟨b0, b1, b2⟩ := b
  obtain ⟨ha0, ha1, ha2⟩ := ha
  obtain ⟨hb0, hb1, hb2⟩ := hb
  simp only [U24.cmp, U24.to_u32, rustCmp] at *
  split_ifs <;> simp only [ordThen] <;> first | rfl | omega

/-- C10: U24 comparison agrees with the numeric value of the stored
little-endian bytes: the MSB-to-LSB byte comparison equals the comparison of
the to_u32 values; from_u32 round-trips on the representable range
0..=0xFFFFFF; hence from_u32 is order-preserving on that range. -/
theorem u24_cmp_agrees_with_value :
    (∀ a b : U24, a.Wf → b.Wf → U24.cmp a b = rustCmp a.to_u32 b.to_u32) ∧
    (∀ v : Nat, v ≤ 0xFFFFFF → (U24.from_u32 v).to_u32 = v) ∧
    (∀ v w : Nat, v ≤ 0xFFFFFF → w ≤ 0xFFFFFF →
      U24.cmp (U24.from_u32 v) (U24.from_u32 w) = rustCmp v w) := by
  refine ⟨u24_cmp_eq_rustCmp, u24_to_u32_from_u32, ?_⟩
  intro v w hv hw
  rw [u24_cmp_eq_rustCmp _ _ (u24_from_u32_wf v) (u24_from_u32_wf w),
    u24_to_u32_from_u32 v hv, u24_to_u32_from_u32 w hw]

/-- Witness for C10 at concrete inputs 300 and 70000. -/
theorem u24_cmp_agrees_with_value_witness :
    U24.cmp (U24.from_u32 300) (U24.from_u32 70000) = Ordering.lt := by
  have h := u24_cmp_agrees_with_value.2.2 300 70000 (by decide) (by decide)
  rw [h]
  decide

/-- Source gate kinds (g16ckt::GateType), exactly the eleven variants matched
exhaustively in src/g16/src/modes/credit.rs and src/g16gen/src modes. -/
inductive GateType where
  | And
  | Xor
  | Nand
  | Xnor
  | Not
  | Or
  | Nor
  | Nimp
  | Ncimp
  | Imp
  | Cimp
deriving DecidableEq, Repr

/-- Source gate (g16ckt::Gate) with fields as used by the modes: a kind and
three wire ids (wire ids, WireId, are modelled as Nat). -/
structure Gate where
  gate_type : GateType
  wire_a : Nat
  wire_b : Nat
  wire_c : Nat
deriving DecidableEq, Repr

/-- Modelled from the spec: the emitted gate-type enum (ckt::GateType) is not
part of this repository's sources; the spec fixes its on-disk encoding as one
byte with 0 = AND. -/
def GateTypeCode.AND : Nat := 0

/-- Modelled from the spec: byte code 1 = XOR for emitted gates. -/
def GateTypeCode.XOR : Nat := 1

/-- Emitted gate (ckt::v5::a::GateV5a) as constructed by
TranslationMode::write_gate: normalized input/output wire ids, the credits of
the output wire, and the emitted gate-type byte code. -/
structure GateV5a where
  in1 : Nat
  in2 : Nat
  out : Nat
  credits : Nat
  gate_type : Nat
deriving DecidableEq, Repr

/-- CreditCollectionMode (src/g16/src/modes/credit.rs).  The progress spinner
is omitted; the Option around the credits vector only serves the final take()
in finish() and is modelled as a plain vector. -/
structure CreditCollectionMode where
  credits : List U24
  next_normalized_id : Nat
  primary_inputs : Nat
  biggest_credits_seen : Nat
deriving DecidableEq, Repr

/-- CreditCollectionMode::allocate_normalized_id: return the current counter
value and advance the counter by one. -/
def CreditCollectionMode.allocate_normalized_id (m : CreditCollectionMode) :
    Nat × CreditCollectionMode :=
  (m.next_normalized_id, { m with next_normalized_id := m.next_normalized_id + 1 })

/-- CreditCollectionMode::new: fresh state, then reserve normalized ids 0
(FALSE) and 1 (TRUE) by two allocator calls. -/
def CreditCollectionMode.new (primary_inputs : Nat) : CreditCollectionMode :=
  let mode : CreditCollectionMode :=
    { credits := [], next_normalized_id := 0, primary_inputs := primary_inputs,
      biggest_credits_seen := 0 }
  let mode := (mode.allocate_normalized_id).2
  (mode.allocate_normalized_id).2

/-- CreditCollectionMode::allocate_wire: take a fresh normalized id, update the
biggest-credits statistic, resize the credits vector with zero fill if the new
id is past its end (Vec::resize), and store the birth credits (a u16
SourceCredits converted into U24) at the new id. -/
def CreditCollectionMode.allocate_wire (m : CreditCollectionMode) (credits : Nat) :
    Nat × CreditCollectionMode :=
  let p := m.allocate_normalized_id
  let normalized_id := p.1
  let m := p.2
  let m := { m with biggest_credits_seen := max m.biggest_credits_seen credits }
  let creds :=
    if m.credits.length ≤ normalized_id then
      m.credits ++ List.replicate (normalized_id + 1 - m.credits.length) (U24.from_u32 0)
    else m.credits
  (normalized_id, { m with credits := creds.set normalized_id (U24.from_u16 credits) })

/-- Body of the loop in CreditCollectionMode::add_credits for one wire: skip
wires in 0 .. primary_inputs + 2; otherwise checked-add the (u16) credit grant
to the stored U24, updating the biggest-credits statistic.  None models the
panic on overflow; indexing out of bounds (a Rust panic) is also None. -/
def CreditCollectionMode.add_credits_step (s : CreditCollectionMode)
    (wire : Nat) (credits : Nat) : Option CreditCollectionMode :=
  if wire < s.primary_inputs + 2 then some s
  else if h : wire < s.credits.length then
    match (s.credits.get ⟨wire, h⟩).checked_add (U24.from_u16 credits) with
    | some new_credits =>
        some { s with
          credits := s.credits.set wire new_credits,
          biggest_credits_seen := max s.biggest_credits_seen new_credits.to_u32 }
    | none => none
  else none

/-- CreditCollectionMode::add_credits: fold the per-wire step over the wire
list, stopping at the first panic. -/
def CreditCollectionMode.add_credits (m : CreditCollectionMode)
    (wires : List Nat) (credits : Nat) : Option CreditCollectionMode :=
  wires.foldlM (fun s wire => s.add_credits_step wire credits) m

/-- Inner helper of CreditCollectionMode::evaluate_gate: allocate num wires,
each born with 1 credit. -/
def CreditCollectionMode.allocate_id (s : CreditCollectionMode) :
    Nat → CreditCollectionMode
  | 0 => s
  | num + 1 => CreditCollectionMode.allocate_id (s.allocate_wire 1).2 num

/-- CreditCollectionMode::evaluate_gate: advance the normalized allocator by
the number of extra wires the translation of this gate kind will produce. -/
def CreditCollectionMode.evaluate_gate (m : CreditCollectionMode) (gate : Gate) :
    CreditCollectionMode :=
  match gate.gate_type with
  | .And => m
  | .Xor => m
  | .Nand => m.allocate_id 1
  | .Xnor => m.allocate_id 1
  | .Not => m
  | .Or => m.allocate_id 2
  | .Nor => m.allocate_id 3
  | .Nimp => m.allocate_id 1
  | .Ncimp => m.allocate_id 1
  | .Imp => m.allocate_id 3
  | .Cimp => m.allocate_id 3

/-- FanoutCounter (src/g16gen/src/modes/fanout_ctr.rs): the u16 fanout-based
variant of the credit pass.  The progress spinner is omitted; the Option
around the fanout vector is modelled as a plain vector (it only serves the
take() in finish()). -/
structure FanoutCounter where
  fanout : List Nat
  next_normalized_id : Nat
  primary_inputs : Nat
  biggest_fanout_seen : Nat
deriving DecidableEq, Repr

/-- FanoutCounter::allocate_normalized_id. -/
def FanoutCounter.allocate_normalized_id (m : FanoutCounter) : Nat × FanoutCounter :=
  (m.next_normalized_id, { m with next_normalized_id := m.next_normalized_id + 1 })

/-- FanoutCounter::new: fresh state, then reserve normalized ids 0 (FALSE) and
1 (TRUE). -/
def FanoutCounter.new (primary_inputs : Nat) : FanoutCounter :=
  let mode : FanoutCounter :=
    { fanout := [], next_normalized_id := 0, primary_inputs := primary_inputs,
      biggest_fanout_seen := 0 }
  let mode := (mode.allocate_normalized_id).2
  (mode.allocate_normalized_id).2

/-- FanoutCounter::allocate_wire: ignore the birth credits and just hand out a
fresh normalized id. -/
def FanoutCounter.allocate_wire (m : FanoutCounter) (_credits : Nat) :
    Nat × FanoutCounter :=
  m.allocate_normalized_id

/-- Closure resize in FanoutCounter::evaluate_gate: Vec::resize the fanout
vector with zero fill when the largest produced wire id is past its end. -/
def FanoutCounter.resizeFanout (fanout : List Nat) (max_wire_produced : Nat) :
    List Nat :=
  if fanout.length ≤ max_wire_produced then
    fanout ++ List.replicate (max_wire_produced + 1 - fanout.length) 0
  else fanout

/-- FanoutCounter::wire_used: primary-input and constant wires (ids below
primary_inputs + 2) are skipped; otherwise the wire's u16 fanout counter is
incremented (modulo 2^16).  The incremented value the source returns is
discarded by every caller and is not modelled; indexing out of bounds (a Rust
panic) is None. -/
def FanoutCounter.wire_used (m : FanoutCounter) (wire_id : Nat) :
    Option FanoutCounter :=
  if wire_id < m.primary_inputs + 2 then some m
  else if h : wire_id < m.fanout.length then
    some { m with fanout := m.fanout.set wire_id ((m.fanout.get ⟨wire_id, h⟩ + 1) % 65536) }
  else none

/-- FanoutCounter::evaluate_gate: allocate the translation's extra wires for
this gate kind, resize the fanout vector to cover the produced wires, and
count one use for every non-constant input of every gate the translation of
this kind will emit. -/
def FanoutCounter.evaluate_gate (m : FanoutCounter) (gate : Gate) :
    Option FanoutCounter :=
  match gate.gate_type with
  | .And => do
      let m := { m with fanout := FanoutCounter.resizeFanout m.fanout gate.wire_c }
      let m ← m.wire_used gate.wire_a
      m.wire_used gate.wire_b
  | .Xor => do
      let m := { m with fanout := FanoutCounter.resizeFanout m.fanout gate.wire_c }
      let m ← m.wire_used gate.wire_a
      m.wire_used gate.wire_b
  | .Not => m.wire_used gate.wire_a
  | .Nand => do
      let p := m.allocate_normalized_id
      let temp := p.1
      let m := p.2
      let m := { m with fanout := FanoutCounter.resizeFanout m.fanout temp }
      let m ← m.wire_used gate.wire_a
      let m ← m.wire_used gate.wire_b
      m.wire_used temp
  | .Xnor => do
      let p := m.allocate_normalized_id
      let temp := p.1
      let m := p.2
      let m := { m with fanout := FanoutCounter.resizeFanout m.fanout temp }
      let m ← m.wire_used gate.wire_a
      let m ← m.wire_used gate.wire_b
      m.wire_used temp
  | .Or => do
      let p1 := m.allocate_normalized_id
      let temp1 := p1.1
      let p2 := p1.2.allocate_normalized_id
      let temp2 := p2.1
      let m := p2.2
      let m := { m with fanout := FanoutCounter.resizeFanout m.fanout temp2 }
      let m ← m.wire_used gate.wire_a
      let m ← m.wire_used gate.wire_b
      let m ← m.wire_used temp1
      let m ← m.wire_used gate.wire_a
      let m ← m.wire_used temp2
      m.wire_used gate.wire_b
  | .Nor => do
      let p1 := m.allocate_normalized_id
      let temp1 := p1.1
      let p2 := p1.2.allocate_normalized_id
      let temp2 := p2.1
      let p3 := p2.2.allocate_normalized_id
      let temp3 := p3.1
      let m := p3.2
      let m := { m with fanout := FanoutCounter.resizeFanout m.fanout temp3 }
      let m ← m.wire_used gate.wire_a
      let m ← m.wire_used gate.wire_b
      let m ← m.wire_used temp1
      let m ← m.wire_used gate.wire_a
      let m ← m.wire_used temp2
      let m ← m.wire_used gate.wire_b
      m.wire_used temp3
  | .Nimp => do
      let p := m.allocate_normalized_id
      let temp := p.1
      let m := p.2
      let m := { m with fanout := FanoutCounter.resizeFanout m.fanout temp }
      let m ← m.wire_used gate.wire_b
      let m ← m.wire_used gate.wire_a
      m.wire_used temp
  | .Ncimp => do
      let p := m.allocate_normalized_id
      let temp := p.1
      let m := p.2
      let m := { m with fanout := FanoutCounter.resizeFanout m.fanout temp }
      let m ← m.wire_used gate.wire_a
      let m ← m.wire_used temp
      m.wire_used gate.wire_b
  | .Imp => do
      let p1 := m.allocate_normalized_id
      let temp1 := p1.1
      let p2 := p1.2.allocate_normalized_id
      let temp2 := p2.1
      let p3 := p2.2.allocate_normalized_id
      let temp3 := p3.1
      let m := p3.2
      let m := { m with fanout := FanoutCounter.resizeFanout m.fanout temp3 }
      let m ← m.wire_used gate.wire_a
      let m ← m.wire_used temp1
      let m ← m.wire_used gate.wire_b
      let m ← m.wire_used temp2
      let m ← m.wire_used temp1
      let m ← m.wire_used temp3
      m.wire_used gate.wire_b
  | .Cimp => do
      let p1 := m.allocate_normalized_id
      let temp1 := p1.1
      let p2 := p1.2.allocate_normalized_id
      let temp2 := p2.1
      let p3 := p2.2.allocate_normalized_id
      let temp3 := p3.1
      let m := p3.2
      let m := { m with fanout := FanoutCounter.resizeFanout m.fanout temp3 }
      let m ← m.wire_used gate.wire_b
      let m ← m.wire_used temp1
      let m ← m.wire_used gate.wire_a
      let m ← m.wire_used temp2
      let m ← m.wire_used temp1
      let m ← m.wire_used temp3
      m.wire_used gate.wire_a

/-- TranslationMode (src/g16gen/src/modes/translate.rs).  The ring-buffer
producer, writer thread and progress bar are replaced by the list of gates
handed to the writer, in push order; the stop channel is omitted. -/
structure TranslationMode where
  creds : List Nat
  next_normalized_id : Nat
  false_wire_id : Nat
  true_wire_id : Nat
  gates : List GateV5a
deriving DecidableEq, Repr

/-- TranslationMode::allocate_normalized_id. -/
def TranslationMode.allocate_normalized_id (m : TranslationMode) :
    Nat × TranslationMode :=
  (m.next_normalized_id, { m with next_normalized_id := m.next_normalized_id + 1 })

/-- TranslationMode::new: constants FALSE = 0 and TRUE = 1, fresh allocator,
then reserve normalized ids 0 and 1. -/
def TranslationMode.new (creds : List Nat) : TranslationMode :=
  let mode : TranslationMode :=
    { creds := creds, next_normalized_id := 0, false_wire_id := 0,
      true_wire_id := 1, gates := [] }
  let mode := (mode.allocate_normalized_id).2
  (mode.allocate_normalized_id).2

/-- TranslationMode::write_gate: build a GateV5a whose credit field is
creds[out] (the u16 credit read as u32) and push it to the writer.  Indexing
out of bounds (a Rust panic) is None. -/
def TranslationMode.write_gate (m : TranslationMode) (gate_type : Nat)
    (in1 in2 out : Nat) : Option TranslationMode :=
  if h : out < m.creds.length then
    some { m with
      gates := m.gates ++
        [{ in1 := in1, in2 := in2, out := out,
           credits := m.creds.get ⟨out, h⟩, gate_type := gate_type }] }
  else none

/-- TranslationMode::translate_gate: lower one source gate to a fixed sequence
of emitted AND/XOR gates over the TRUE constant, allocating the intermediate
normalized ids. -/
def TranslationMode.translate_gate (m : TranslationMode) (gate : Gate) :
    Option TranslationMode :=
  let in1 := gate.wire_a
  let in2 := gate.wire_b
  let out := gate.wire_c
  match gate.gate_type with
  | .And => m.write_gate GateTypeCode.AND in1 in2 out
  | .Xor => m.write_gate GateTypeCode.XOR in1 in2 out
  | .Nand => do
      let p := m.allocate_normalized_id
      let temp := p.1
      let m := p.2
      let m ← m.write_gate GateTypeCode.AND in1 in2 temp
      m.write_gate GateTypeCode.XOR temp m.true_wire_id out
  | .Xnor => do
      let p := m.allocate_normalized_id
      let temp := p.1
      let m := p.2
      let m ← m.write_gate GateTypeCode.XOR in1 in2 temp
      m.write_gate GateTypeCode.XOR temp m.true_wire_id out
  | .Not => m.write_gate GateTypeCode.XOR in1 m.true_wire_id out
  | .Or => do
      let p1 := m.allocate_normalized_id
      let temp1 := p1.1
      let p2 := p1.2.allocate_normalized_id
      let temp2 := p2.1
      let m := p2.2
      let m ← m.write_gate GateTypeCode.AND in1 in2 temp1
      let m ← m.write_gate GateTypeCode.XOR temp1 in1 temp2
      m.write_gate GateTypeCode.XOR temp2 in2 out
  | .Nor => do
      let p1 := m.allocate_normalized_id
      let temp1 := p1.1
      let p2 := p1.2.allocate_normalized_id
      let temp2 := p2.1
      let p3 := p2.2.allocate_normalized_id
      let temp3 := p3.1
      let m := p3.2
      let m ← m.write_gate GateTypeCode.AND in1 in2 temp1
      let m ← m.write_gate GateTypeCode.XOR temp1 in1 temp2
      let m ← m.write_gate GateTypeCode.XOR temp2 in2 temp3
      m.write_gate GateTypeCode.XOR temp3 m.true_wire_id out
  | .Nimp => do
      let p := m.allocate_normalized_id
      let temp := p.1
      let m := p.2
      let m ← m.write_gate GateTypeCode.XOR in2 m.true_wire_id temp
      m.write_gate GateTypeCode.AND in1 temp out
  | .Ncimp => do
      let p := m.allocate_normalized_id
      let temp := p.1
      let m := p.2
      let m ← m.write_gate GateTypeCode.XOR in1 m.true_wire_id temp
      m.write_gate GateTypeCode.AND temp in2 out
  | .Imp => do
      let p1 := m.allocate_normalized_id
      let temp1 := p1.1
      let p2 := p1.2.allocate_normalized_id
      let temp2 := p2.1
      let p3 := p2.2.allocate_normalized_id
      let temp3 := p3.1
      let m := p3.2
      let m ← m.write_gate GateTypeCode.XOR in1 m.true_wire_id temp1
      let m ← m.write_gate GateTypeCode.AND temp1 in2 temp2
      let m ← m.write_gate GateTypeCode.XOR temp2 temp1 temp3
      m.write_gate GateTypeCode.XOR temp3 in2 out
  | .Cimp => do
      let p1 := m.allocate_normalized_id
      let temp1 := p1.1
      let p2 := p1.2.allocate_normalized_id
      let temp2 := p2.1
      let p3 := p2.2.allocate_normalized_id
      let temp3 := p3.1
      let m := p3.2
      let m ← m.write_gate GateTypeCode.XOR in2 m.true_wire_id temp1
      let m ← m.write_gate GateTypeCode.AND temp1 in1 temp2
      let m ← m.write_gate GateTypeCode.XOR temp2 temp1 temp3
      m.write_gate GateTypeCode.XOR temp3 in1 out

/-- Extra internal wires per source-gate kind: the shared expansion table from
the specification (0 for AND, XOR, NOT; 1 for NAND, XNOR, NIMP, NCIMP; 2 for
OR; 3 for NOR, IMP, CIMP). -/
def extra : GateType → Nat
  | .And => 0
  | .Xor => 0
  | .Not => 0
  | .Nand => 1
  | .Xnor => 1
  | .Nimp => 1
  | .Ncimp => 1
  | .Or => 2
  | .Nor => 3
  | .Imp => 3
  | .Cimp => 3

/-- Live wire dictionary of the checker (g16check): wire id to remaining u32
credits. -/
def WireMap : Type := Nat → Option Nat

/-- HashMap::insert as used by the checker: map the key to the new value. -/
def WireMap.insert (map : WireMap) (key value : Nat) : WireMap :=
  fun x => if x = key then some value else map x

/-- HashMap::remove as used by the checker. -/
def WireMap.remove (map : WireMap) (key : Nat) : WireMap :=
  fun x => if x = key then none else map x

/-- The lookup_wire closure of src/g16check/src/main.rs, with the captured
always_available = primary_inputs + 2 passed explicitly: a wire at or below
always_available is unconditionally available; otherwise its dictionary entry
is decremented (u32 wrapping subtraction) and removed when it reaches zero,
and a missing entry reports the wire unavailable. -/
def lookup_wire (always_available : Nat) (map : WireMap) (wire : Nat) :
    Bool × WireMap :=
  if wire ≤ always_available then (true, map)
  else
    match map wire with
    | none => (false, map)
    | some credits =>
      let credits := (credits + 4294967295) % 4294967296
      if credits = 0 then (true, WireMap.remove map wire)
      else (true, WireMap.insert map wire credits)

/-- Body of the checker's per-gate loop: look up both input wires (the second
lookup sees the dictionary as updated by the first), panic (None) when either
is unavailable, then insert the output wire with the gate's credit field.  The
write-only available_wires bitset of the source is omitted. -/
def process_gate (always_available : Nat) (map : WireMap) (g : GateV5a) :
    Option WireMap :=
  let r1 := lookup_wire always_available map g.in1
  let r2 := lookup_wire always_available r1.2 g.in2
  if !r1.1 then none
  else if !r2.1 then none
  else some (WireMap.insert r2.2 g.out g.credits)

/-- Output-wire zeroing loop at the end of run_credits_pass
(src/g16gen/src/passes/credits.rs): credits[output_wire.0] = 0u32.into() for
every returned output wire, an out-of-bounds index being a Rust panic (None). -/
def set_output_credits_to_zero (credits : List U24) (output_wires : List Nat) :
    Option (List U24) :=
  output_wires.foldlM
    (fun creds w =>
      if w < creds.length then some (creds.set w (U24.from_u32 0)) else none)
    credits

lemma list_getD_set_self {α : Type} (l : List α) (i : Nat) (a d : α)
    (h : i < l.length) : (l.set i a).getD i d = a := by
  rw [List.getD_eq_getElem?_getD, List.getElem?_set_self (by simpa using h)]
  rfl

lemma list_getD_set_ne {α : Type} (l : List α) (i j : Nat) (a d : α)
    (h : i ≠ j) : (l.set i a).getD j d = l.getD j d := by
  rw [List.getD_eq_getElem?_getD, List.getElem?_set_ne h,
    ← List.getD_eq_getElem?_getD]

/-- C8: in the credit-collection mode, the normalized-id allocator starts at 2
after construction (ids 0 and 1 are reserved for the constants), and
allocate_wire(birth) returns the current counter value as the fresh wire id,
advances the counter by exactly 1, and stores credits[new_id] = birth. -/
theorem allocate_wire_spec :
    (∀ p : Nat, (CreditCollectionMode.new p).next_normalized_id = 2) ∧
    (∀ (m : CreditCollectionMode) (birth : Nat), birth ≤ 65535 →
      (m.allocate_wire birth).1 = m.next_normalized_id ∧
      ((m.allocate_wire birth).2).next_normalized_id = m.next_normalized_id + 1 ∧
      (((m.allocate_wire birth).2).credits.getD (m.allocate_wire birth).1
          (U24.from_u32 0)).to_u32 = birth) := by
  constructor
  · intro p
    rfl
  · intro m birth hb
    refine ⟨rfl, rfl, ?_⟩
    unfold CreditCollectionMode.allocate_wire CreditCollectionMode.allocate_normalized_id
    dsimp only
    split_ifs with hlen
    · rw [list_getD_set_self _ _ _ _ (by simp; omega)]
      exact u24_to_u32_from_u16 birth hb
    · rw [list_getD_set_self _ _ _ _ (by omega)]
      exact u24_to_u32_from_u16 birth hb

/-- Witness for C8 at a concrete mode state and birth credit. -/
theorem allocate_wire_spec_witness :
    (CreditCollectionMode.new 3).next_normalized_id = 2 ∧
    ((((CreditCollectionMode.new 3).allocate_wire 7).2).credits.getD
        ((CreditCollectionMode.new 3).allocate_wire 7).1 (U24.from_u32 0)).to_u32 = 7 := by
  refine ⟨allocate_wire_spec.1 3, ?_⟩
  exact (allocate_wire_spec.2 (CreditCollectionMode.new 3) 7 (by decide)).2.2

lemma set_output_zero_mem :
    ∀ (output_wires : List Nat) (credits res : List U24),
      set_output_credits_to_zero credits output_wires = some res →
      ∀ w, (w ∈ output_wires ∨ credits.getD w (U24.from_u32 0) = U24.from_u32 0) →
        res.getD w (U24.from_u32 0) = U24.from_u32 0 := by
  intro outputs
  induction outputs with
  | nil =>
      intro credits res h w hw
      simp only [set_output_credits_to_zero, List.foldlM_nil] at h
      cases h
      rcases hw with hw | hw
      · cases hw
      · exact hw
  | cons o os ih =>
      intro credits res h w hw
      simp only [set_output_credits_to_zero, List.foldlM_cons] at h
      split_ifs at h with hlen
      · simp only [Option.bind_eq_bind, Option.some_bind] at h
        have ih := ih (credits.set o (U24.from_u32 0)) res h
        rcases hw with hw | hw
        · rcases List.mem_cons.mp hw with rfl | hw
          · exact ih w (Or.inr (list_getD_set_self _ _ _ _ hlen))
          · exact ih w (Or.inl hw)
        · by_cases hwo : w = o
          · subst hwo
            exact ih w (Or.inr (list_getD_set_self _ _ _ _ hlen))
          · exact ih w (Or.inr (by rw [list_getD_set_ne _ _ _ _ _ (fun he => hwo he.symm)]; exact hw))
      · simp at h

/-- C6: whatever credits the pass accumulated, after the output-zeroing loop
at the end of run_credits_pass every wire in the returned output-wire list has
credits 0. -/
theorem output_wire_credits_zeroed :
    ∀ (credits : List U24) (output_wires : List Nat) (res : List U24),
      set_output_credits_to_zero credits output_wires = some res →
      ∀ w ∈ output_wires, (res.getD w (U24.from_u32 0)).to_u32 = 0 := by
  intro credits outputs res h w hw
  rw [set_output_zero_mem outputs credits res h w (Or.inl hw)]
  rfl

/-- Witness for C6 on a concrete credits vector and output list. -/
theorem output_wire_credits_zeroed_witness :
    set_output_credits_to_zero [U24.from_u32 7, U24.from_u32 9] [1]
        = some [U24.from_u32 7, U24.from_u32 0] ∧
    (([U24.from_u32 7, U24.from_u32 0] : List U24).getD 1 (U24.from_u32 0)).to_u32 = 0 :=
  ⟨by decide, output_wire_credits_zeroed [U24.from_u32 7, U24.from_u32 9] [1]
    [U24.from_u32 7, U24.from_u32 0] (by decide) 1 (by decide)⟩

/-- Scenario S4 run under the U24 CreditCollectionMode with 2 primary inputs:
allocate wires a = 2, b = 3 and c = 4 (c born with 0 credits), process
IMP a b -> c (the first intermediate t1 of the expansion gets id 5), grant c
one credit for its consumption by the AND, allocate d = 8, process
AND c a -> d. -/
def credit_scenario : Option CreditCollectionMode :=
  let m := CreditCollectionMode.new 2
  let m := ((m.allocate_wire 0).2.allocate_wire 0).2
  let m := (m.allocate_wire 0).2
  let m := m.evaluate_gate { gate_type := .Imp, wire_a := 2, wire_b := 3, wire_c := 4 }
  (m.add_credits [4] 1).map (fun m =>
    let m := (m.allocate_wire 0).2
    m.evaluate_gate { gate_type := .And, wire_a := 4, wire_b := 2, wire_c := 8 })

/-- Scenario S4 run under the FanoutCounter with 2 primary inputs: the same
wire layout (a = 2, b = 3, c = 4, t1 = 5, d = 8); consumption counts come
from wire_used, so no explicit credit grant is involved. -/
def fanout_scenario : Option FanoutCounter := do
  let m := FanoutCounter.new 2
  let m := ((m.allocate_wire 0).2.allocate_wire 0).2
  let m := (m.allocate_wire 0).2
  let m ← m.evaluate_gate { gate_type := .Imp, wire_a := 2, wire_b := 3, wire_c := 4 }
  let m := (m.allocate_wire 0).2
  m.evaluate_gate { gate_type := .And, wire_a := 4, wire_b := 2, wire_c := 8 }

/-- C2: on the S4 scenario the U24 CreditCollectionMode ends with
credits[t1] = 1 (it births every expansion temporary with exactly 1 credit),
although t1 is consumed by the second and third emitted gates of the IMP
expansion, while the FanoutCounter variant counts fanout[t1] = 2 as the claim
and the checker require; both agree that wire c ends with 1 credit. -/
theorem imp_expansion_credit_divergence :
    credit_scenario.map (fun mc =>
      ((mc.credits.getD 5 (U24.from_u32 0)).to_u32,
       (mc.credits.getD 4 (U24.from_u32 0)).to_u32)) = some (1, 1) ∧
    fanout_scenario.map (fun mf =>
      (mf.fanout.getD 5 0, mf.fanout.getD 4 0)) = some (2, 1) := by
  constructor
  · decide
  · decide

/-- Counterexample for C3 as stated: with primary_input_count = 1 the wire
id 3 = primary_input_count + 2 is not below primary_input_count + 2, yet the
checker reports it unconditionally available on an empty dictionary instead
of failing: the source compares with wire <= always_available. -/
theorem checker_boundary_counterexample :
    1 + 2 ≤ 3 ∧
    lookup_wire (1 + 2) (fun _ => none) 3 = (true, fun _ => none) :=
  ⟨by decide, rfl⟩

/-- C3 (amended): the checker treats an input wire as unconditionally
available exactly when its id is at most primary_input_count + 2; an input
wire with id strictly greater than primary_input_count + 2 must be present in
the live dictionary, and a gate whose input is such an absent wire makes the
checker fail fatally. -/
theorem checker_availability_boundary :
    ∀ (primary_inputs : Nat) (map : WireMap) (wire : Nat),
      (wire ≤ primary_inputs + 2 →
        lookup_wire (primary_inputs + 2) map wire = (true, map)) ∧
      (primary_inputs + 2 < wire → map wire = none →
        lookup_wire (primary_inputs + 2) map wire = (false, map)) ∧
      (∀ g : GateV5a,
        (primary_inputs + 2 < g.in1 → map g.in1 = none →
          process_gate (primary_inputs + 2) map g = none) ∧
        (g.in1 ≤ primary_inputs + 2 → primary_inputs + 2 < g.in2 → map g.in2 = none →
          process_gate (primary_inputs + 2) map g = none)) := by
  intro p map wire
  have havail : ∀ (m : WireMap) (w : Nat), w ≤ p + 2 →
      lookup_wire (p + 2) m w = (true, m) := by
    intro m w hw
    simp [lookup_wire, hw]
  have hmiss : ∀ (m : WireMap) (w : Nat), p + 2 < w → m w = none →
      lookup_wire (p + 2) m w = (false, m) := by
    intro m w hw hnone
    simp [lookup_wire, Nat.not_le.mpr hw, hnone]
  refine ⟨havail map wire, hmiss map wire, ?_⟩
  intro g
  constructor
  · intro h1 hnone
    simp [process_gate, hmiss map g.in1 h1 hnone]
  · intro h1 h2 hnone
    simp [process_gate, havail map g.in1 h1, hmiss map g.in2 h2 hnone]

/-- Witness for C3 (amended) at concrete inputs: primary_inputs = 1, an empty
dictionary, wire 2, and a gate reading absent wire 9. -/
theorem checker_availability_boundary_witness :
    lookup_wire (1 + 2) (fun _ => none) 2 = (true, fun _ => none) ∧
    process_gate (1 + 2) (fun _ => none)
        { in1 := 9, in2 := 0, out := 10, credits := 1, gate_type := 0 } = none := by
  constructor
  · exact (checker_availability_boundary 1 (fun _ => none) 2).1 (by decide)
  · exact ((checker_availability_boundary 1 (fun _ => none) 2).2.2
      { in1 := 9, in2 := 0, out := 10, credits := 1, gate_type := 0 }).1 (by decide) rfl

lemma add_credits_step_some {s s' : CreditCollectionMode} {wire n : Nat}
    (h : s.add_credits_step wire n = some s') :
    s'.credits.length = s.credits.length ∧ s'.primary_inputs = s.primary_inputs ∧
    ∀ v, v ≠ wire →
      s'.credits.getD v (U24.from_u32 0) = s.credits.getD v (U24.from_u32 0) := by
  unfold CreditCollectionMode.add_credits_step at h
  split_ifs at h with hp hlen
  · cases h
    exact ⟨rfl, rfl, fun v _ => rfl⟩
  · split at h
    · cases h
      exact ⟨by simp, rfl, fun v hv =>
        list_getD_set_ne _ _ _ _ _ (fun he => hv he.symm)⟩
    · exact absurd h (by simp)

lemma add_credits_step_skip {s : CreditCollectionMode} {wire : Nat} (n : Nat)
    (hp : wire < s.primary_inputs + 2) :
    s.add_credits_step wire n = some s := by
  simp [CreditCollectionMode.add_credits_step, hp]

lemma add_credits_step_eligible {s : CreditCollectionMode} {wire n : Nat}
    (hp : ¬ wire < s.primary_inputs + 2) (hlen : wire < s.credits.length)
    (hn : n ≤ 65535) :
    (U24.MAX < (s.credits.getD wire (U24.from_u32 0)).to_u32 + n →
      s.add_credits_step wire n = none) ∧
    ((s.credits.getD wire (U24.from_u32 0)).to_u32 + n ≤ U24.MAX →
      ∃ s', s.add_credits_step wire n = some s' ∧
        s'.credits.getD wire (U24.from_u32 0)
          = U24.from_u32 ((s.credits.getD wire (U24.from_u32 0)).to_u32 + n)) := by
  have hget : s.credits.get ⟨wire, hlen⟩ = s.credits.getD wire (U24.from_u32 0) := by
    rw [List.getD_eq_getElem _ _ hlen]
    rfl
  unfold CreditCollectionMode.add_credits_step
  rw [if_neg hp, dif_pos hlen, hget]
  unfold U24.checked_add
  rw [u24_to_u32_from_u16 n hn]
  constructor
  · intro hov
    rw [if_pos hov]
  · intro hok
    rw [if_neg (by omega)]
    exact ⟨_, rfl, list_getD_set_self _ _ _ _ hlen⟩

lemma add_credits_spec (n : Nat) (hn : n ≤ 65535) :
    ∀ (wires : List Nat) (m : CreditCollectionMode),
      wires.Nodup → (∀ w ∈ wires, w < m.credits.length) →
      ((m.add_credits wires n = none ↔
          ∃ w ∈ wires, m.primary_inputs + 2 ≤ w ∧
            U24.MAX < (m.credits.getD w (U24.from_u32 0)).to_u32 + n) ∧
       (∀ m', m.add_credits wires n = some m' →
          m'.primary_inputs = m.primary_inputs ∧
          m'.credits.length = m.credits.length ∧
          (∀ w ∈ wires, m.primary_inputs + 2 ≤ w →
            (m'.credits.getD w (U24.from_u32 0)).to_u32
              = (m.credits.getD w (U24.from_u32 0)).to_u32 + n) ∧
          (∀ v, v ∉ wires →
            m'.credits.getD v (U24.from_u32 0) = m.credits.getD v (U24.from_u32 0)))) := by
  intro wires
  induction wires with
  | nil =>
      intro m _ _
      constructor
      · simp [CreditCollectionMode.add_credits]
      · intro m' h
        simp only [CreditCollectionMode.add_credits, List.foldlM_nil] at h
        cases h
        exact ⟨rfl, rfl, by simp, fun v _ => rfl⟩
  | cons w ws ih =>
      intro m hnd hb
      have hwlen : w < m.credits.length := hb w (List.mem_cons_self w ws)
      have hwnotin : w ∉ ws := (List.nodup_cons.mp hnd).1
      have hndtail : ws.Nodup := (List.nodup_cons.mp hnd).2
      have hunf : m.add_credits (w :: ws) n
          = (m.add_credits_step w n).bind (fun s => s.add_credits ws n) := by
        simp [CreditCollectionMode.add_credits, List.foldlM_cons]
      by_cases hp : w < m.primary_inputs + 2
      · rw [hunf, add_credits_step_skip n hp, Option.some_bind]
        have IH := ih m hndtail (fun v hv => hb v (List.mem_cons_of_mem w hv))
        constructor
        · rw [IH.1]
          constructor
          · rintro ⟨v, hv, hev, hov⟩
            exact ⟨v, List.mem_cons_of_mem w hv, hev, hov⟩
          · rintro ⟨v, hv, hev, hov⟩
            rcases List.mem_cons.mp hv with rfl | hv
            · omega
            · exact ⟨v, hv, hev, hov⟩
        · intro m' h
          obtain ⟨hprim, hlen, hupd, hframe⟩ := IH.2 m' h
          refine ⟨hprim, hlen, ?_, ?_⟩
          · intro v hv hev
            rcases List.mem_cons.mp hv with rfl | hv
            · omega
            · exact hupd v hv hev
          · intro v hv
            exact hframe v (fun hvin => hv (List.mem_cons_of_mem w hvin))
      · have he := add_credits_step_eligible hp hwlen hn
        by_cases hov : U24.MAX < (m.credits.getD w (U24.from_u32 0)).to_u32 + n
        · rw [hunf, he.1 hov, Option.none_bind]
          constructor
          · constructor
            · intro _
              exact ⟨w, List.mem_cons_self w ws, by omega, hov⟩
            · intro _
              rfl
          · intro m' h
            exact absurd h (by simp)
        · obtain ⟨m₁, hstep, hval⟩ := he.2 (by omega)
          obtain ⟨hlen₁, hprim₁, hframe₁⟩ := add_credits_step_some hstep
          rw [hunf, hstep, Option.some_bind]
          have hb₁ : ∀ v ∈ ws, v < m₁.credits.length := by
            intro v hv
            rw [hlen₁]
            exact hb v (List.mem_cons_of_mem w hv)
          have IH := ih m₁ hndtail hb₁
          have hne : ∀ v ∈ ws, v ≠ w := fun v hv he => hwnotin (he ▸ hv)
          have hsame : ∀ v ∈ ws,
              m₁.credits.getD v (U24.from_u32 0) = m.credits.getD v (U24.from_u32 0) :=
            fun v hv => hframe₁ v (hne v hv)
          constructor
          · rw [IH.1]
            constructor
            · rintro ⟨v, hv, hev, hovv⟩
              refine ⟨v, List.mem_cons_of_mem w hv, by omega, ?_⟩
              rw [← hsame v hv]
              exact hovv
            · rintro ⟨v, hv, hev, hovv⟩
              rcases List.mem_cons.mp hv with rfl | hv
              · omega
              · refine ⟨v, hv, by omega, ?_⟩
                rw [hsame v hv]
                exact hovv
          · intro m' h
            obtain ⟨hprim, hlen, hupd, hframe⟩ := IH.2 m' h
            refine ⟨hprim.trans hprim₁, hlen.trans hlen₁, ?_, ?_⟩
            · intro v hv hev
              rcases List.mem_cons.mp hv with rfl | hv
              · rw [hframe v hwnotin, hval,
                  u24_to_u32_from_u32 _ (by unfold U24.MAX at hov; omega)]
              · rw [hupd v hv (by omega), hsame v hv]
            · intro v hv
              have hvw : v ≠ w := fun he => hv (he ▸ List.mem_cons_self w ws)
              rw [hframe v (fun hvin => hv (List.mem_cons_of_mem w hvin)), hframe₁ v hvw]

/-- C4: add_credits performs a checked addition of the grant onto every
eligible (non-primary, non-constant) wire of the call, and panics exactly when
some eligible wire's resulting total would exceed 2^24 - 1; on success every
eligible wire's credits become exactly the old value plus the grant.  The
grant is a NonZero u16 SourceCredits, and the wires are assumed distinct and
inside the credits vector (an out-of-range wire would be a different,
index-out-of-bounds panic). -/
theorem add_credits_checked :
    ∀ (m : CreditCollectionMode) (wires : List Nat) (n : Nat),
      1 ≤ n → n ≤ 65535 → wires.Nodup → (∀ w ∈ wires, w < m.credits.length) →
      ((m.add_credits wires n = none ↔
          ∃ w ∈ wires, m.primary_inputs + 2 ≤ w ∧
            2 ^ 24 - 1 < (m.credits.getD w (U24.from_u32 0)).to_u32 + n) ∧
       (∀ m', m.add_credits wires n = some m' →
          ∀ w ∈ wires, m.primary_inputs + 2 ≤ w →
            (m'.credits.getD w (U24.from_u32 0)).to_u32
              = (m.credits.getD w (U24.from_u32 0)).to_u32 + n)) := by
  intro m wires n _ hn hnd hb
  have hs := add_credits_spec n hn wires m hnd hb
  have hmax : U24.MAX = 2 ^ 24 - 1 := by decide
  constructor
  · rw [← hmax]
    exact hs.1
  · intro m' hm'
    exact (hs.2 m' hm').2.2.1

/-- Witness for C4: a concrete successful call adding 1 credit to wire 4,
whose stored credits go from 5 to 6. -/
theorem add_credits_checked_witness :
    (CreditCollectionMode.mk
        [U24.from_u32 0, U24.from_u32 0, U24.from_u32 0, U24.from_u32 0, U24.from_u32 5]
        5 2 0).add_credits [4] 1
      = some (CreditCollectionMode.mk
        [U24.from_u32 0, U24.from_u32 0, U24.from_u32 0, U24.from_u32 0, U24.from_u32 6]
        5 2 6) ∧
    ((CreditCollectionMode.mk
        [U24.from_u32 0, U24.from_u32 0, U24.from_u32 0, U24.from_u32 0, U24.from_u32 6]
        5 2 6).credits.getD 4 (U24.from_u32 0)).to_u32
      = ((CreditCollectionMode.mk
        [U24.from_u32 0, U24.from_u32 0, U24.from_u32 0, U24.from_u32 0, U24.from_u32 5]
        5 2 0).credits.getD 4 (U24.from_u32 0)).to_u32 + 1 := by
  refine ⟨by decide, ?_⟩
  exact (add_credits_checked _ [4] 1 (by decide) (by decide) (by decide)
    (by decide)).2 _ (by decide) 4 (by decide) (by decide)

lemma add_credits_frame_low :
    ∀ (wires : List Nat) (m m' : CreditCollectionMode) (n v : Nat),
      v < m.primary_inputs + 2 → m.add_credits wires n = some m' →
      m'.credits.getD v (U24.from_u32 0) = m.credits.getD v (U24.from_u32 0)
        ∧ m'.primary_inputs = m.primary_inputs := by
  intro wires
  induction wires with
  | nil =>
      intro m m' n v _ h
      simp only [CreditCollectionMode.add_credits, List.foldlM_nil] at h
      cases h
      exact ⟨rfl, rfl⟩
  | cons w ws ih =>
      intro m m' n v hv h
      have hunf : m.add_credits (w :: ws) n
          = (m.add_credits_step w n).bind (fun s => s.add_credits ws n) := by
        simp [CreditCollectionMode.add_credits, List.foldlM_cons]
      rw [hunf] at h
      rcases hstep : m.add_credits_step w n with _ | m₁
      · rw [hstep, Option.none_bind] at h
        exact absurd h (by simp)
      · rw [hstep, Option.some_bind] at h
        obtain ⟨hlen₁, hprim₁, hframe₁⟩ := add_credits_step_some hstep
        have ihh := ih m₁ m' n v (by omega) h
        by_cases hp : w < m.primary_inputs + 2
        · rw [add_credits_step_skip n hp] at hstep
          cases hstep
          exact ihh
        · have hvw : v ≠ w := by omega
          exact ⟨ihh.1.trans (hframe₁ v hvw), ihh.2.trans hprim₁⟩

/-- C5: a primary-input wire (id in 2 .. 2 + primary_input_count) is skipped
by every add_credits call of the credit-collection mode and by every wire_used
call of the fanout-counter variant: its credits never change. -/
theorem primary_inputs_accumulate_no_credits :
    (∀ (m : CreditCollectionMode) (wires : List Nat) (n : Nat)
        (m' : CreditCollectionMode) (w : Nat),
      2 ≤ w → w < m.primary_inputs + 2 →
      m.add_credits wires n = some m' →
      m'.credits.getD w (U24.from_u32 0) = m.credits.getD w (U24.from_u32 0)) ∧
    (∀ (f : FanoutCounter) (w : Nat), w < f.primary_inputs + 2 →
      f.wire_used w = some f) := by
  constructor
  · intro m wires n m' w _ hw h
    exact (add_credits_frame_low wires m m' n w hw h).1
  · intro f w hw
    simp [FanoutCounter.wire_used, hw]

/-- Witness for C5: the call of the C4 witness leaves primary-input wire 2
untouched, and wire_used on a primary input is the identity. -/
theorem primary_inputs_accumulate_no_credits_witness :
    (CreditCollectionMode.mk
        [U24.from_u32 0, U24.from_u32 0, U24.from_u32 3, U24.from_u32 0, U24.from_u32 5]
        5 2 0).add_credits [4] 1
      = some (CreditCollectionMode.mk
        [U24.from_u32 0, U24.from_u32 0, U24.from_u32 3, U24.from_u32 0, U24.from_u32 6]
        5 2 6) ∧
    (CreditCollectionMode.mk
        [U24.from_u32 0, U24.from_u32 0, U24.from_u32 3, U24.from_u32 0, U24.from_u32 6]
        5 2 6).credits.getD 2 (U24.from_u32 0)
      = (CreditCollectionMode.mk
        [U24.from_u32 0, U24.from_u32 0, U24.from_u32 3, U24.from_u32 0, U24.from_u32 5]
        5 2 0).credits.getD 2 (U24.from_u32 0) ∧
    (FanoutCounter.mk [0, 0, 0] 3 2 0).wire_used 2 = some (FanoutCounter.mk [0, 0, 0] 3 2 0) := by
  refine ⟨by decide, ?_, ?_⟩
  · exact primary_inputs_accumulate_no_credits.1 _ [4] 1 _ 2 (by decide) (by decide) (by decide)
  · exact primary_inputs_accumulate_no_credits.2 _ 2 (by decide)

lemma bind_eq_some_iff {α β : Type} {x : Option α} {f : α → Option β} {b : β} :
    x >>= f = some b ↔ ∃ a, x = some a ∧ f a = some b := Option.bind_eq_some

lemma mem_append_one {e g : GateV5a} {l : List GateV5a} (he : e ∈ l ++ [g]) :
    e ∈ l ∨ e = g := by
  rcases List.mem_append.mp he with h | h
  · exact Or.inl h
  · exact Or.inr (List.mem_singleton.mp h)

lemma write_gate_some {m m' : TranslationMode} {gt i1 i2 o : Nat}
    (h : m.write_gate gt i1 i2 o = some m') :
    m'.next_normalized_id = m.next_normalized_id ∧
    m'.creds = m.creds ∧
    m'.true_wire_id = m.true_wire_id ∧
    ∃ cr, m'.gates = m.gates ++
      [{ in1 := i1, in2 := i2, out := o, credits := cr, gate_type := gt }] := by
  unfold TranslationMode.write_gate at h
  split at h
  · cases h
    exact ⟨rfl, rfl, rfl, _, rfl⟩
  · exact absurd h (by simp)

lemma translate_gate_some {m m' : TranslationMode} {g : Gate}
    (h : m.translate_gate g = some m') :
    m'.next_normalized_id = m.next_normalized_id + extra g.gate_type ∧
    m'.gates.length = m.gates.length + (1 + extra g.gate_type) ∧
    (∀ e ∈ m'.gates, e ∈ m.gates ∨
      e.gate_type = GateTypeCode.AND ∨ e.gate_type = GateTypeCode.XOR) := by
  obtain ⟨gt, a, b, c⟩ := g
  cases gt with
  | And =>
      simp only [TranslationMode.translate_gate] at h
      obtain ⟨hn1, -, -, cr1, hg1⟩ := write_gate_some h
      refine ⟨hn1, ?_, ?_⟩
      · show m'.gates.length = m.gates.length + 1
        rw [hg1]
        simp
      · intro e he
        rw [hg1] at he
        rcases mem_append_one he with he | rfl
        · exact Or.inl he
        · exact Or.inr (Or.inl rfl)
  | Xor =>
      simp only [TranslationMode.translate_gate] at h
      obtain ⟨hn1, -, -, cr1, hg1⟩ := write_gate_some h
      refine ⟨hn1, ?_, ?_⟩
      · show m'.gates.length = m.gates.length + 1
        rw [hg1]
        simp
      · intro e he
        rw [hg1] at he
        rcases mem_append_one he with he | rfl
        · exact Or.inl he
        · exact Or.inr (Or.inr rfl)
  | Not =>
      simp only [TranslationMode.translate_gate] at h
      obtain ⟨hn1, -, -, cr1, hg1⟩ := write_gate_some h
      refine ⟨hn1, ?_, ?_⟩
      · show m'.gates.length = m.gates.length + 1
        rw [hg1]
        simp
      · intro e he
        rw [hg1] at he
        rcases mem_append_one he with he | rfl
        · exact Or.inl he
        · exact Or.inr (Or.inr rfl)
  | Nand =>
      simp only [TranslationMode.translate_gate] at h
      rw [bind_eq_some_iff] at h
      obtain ⟨m1, h1, h2⟩ := h
      obtain ⟨hn1, -, -, cr1, hg1⟩ := write_gate_some h1
      obtain ⟨hn2, -, -, cr2, hg2⟩ := write_gate_some h2
      refine ⟨?_, ?_, ?_⟩
      · rw [hn2, hn1]
        rfl
      · have l1 : m1.gates.length = m.gates.length + 1 := by rw [hg1]; simp [TranslationMode.allocate_normalized_id]
        have l2 : m'.gates.length = m1.gates.length + 1 := by rw [hg2]; simp
        show m'.gates.length = m.gates.length + 2
        omega
      · intro e he
        rw [hg2] at he
        rcases mem_append_one he with he | rfl
        · rw [hg1] at he
          rcases mem_append_one he with he | rfl
          · exact Or.inl he
          · exact Or.inr (Or.inl rfl)
        · exact Or.inr (Or.inr rfl)
  | Xnor =>
      simp only [TranslationMode.translate_gate] at h
      rw [bind_eq_some_iff] at h
      obtain ⟨m1, h1, h2⟩ := h
      obtain ⟨hn1, -, -, cr1, hg1⟩ := write_gate_some h1
      obtain ⟨hn2, -, -, cr2, hg2⟩ := write_gate_some h2
      refine ⟨?_, ?_, ?_⟩
      · rw [hn2, hn1]
        rfl
      · have l1 : m1.gates.length = m.gates.length + 1 := by rw [hg1]; simp [TranslationMode.allocate_normalized_id]
        have l2 : m'.gates.length = m1.gates.length + 1 := by rw [hg2]; simp
        show m'.gates.length = m.gates.length + 2
        omega
      · intro e he
        rw [hg2] at he
        rcases mem_append_one he with he | rfl
        · rw [hg1] at he
          rcases mem_append_one he with he | rfl
          · exact Or.inl he
          · exact Or.inr (Or.inr rfl)
        · exact Or.inr (Or.inr rfl)
  | Nimp =>
      simp only [TranslationMode.translate_gate] at h
      rw [bind_eq_some_iff] at h
      obtain ⟨m1, h1, h2⟩ := h
      obtain ⟨hn1, -, -, cr1, hg1⟩ := write_gate_some h1
      obtain ⟨hn2, -, -, cr2, hg2⟩ := write_gate_some h2
      refine ⟨?_, ?_, ?_⟩
      · rw [hn2, hn1]
        rfl
      · have l1 : m1.gates.length = m.gates.length + 1 := by rw [hg1]; simp [TranslationMode.allocate_normalized_id]
        have l2 : m'.gates.length = m1.gates.length + 1 := by rw [hg2]; simp
        show m'.gates.length = m.gates.length + 2
        omega
      · intro e he
        rw [hg2] at he
        rcases mem_append_one he with he | rfl
        · rw [hg1] at he
          rcases mem_append_one he with he | rfl
          · exact Or.inl he
          · exact Or.inr (Or.inr rfl)
        · exact Or.inr (Or.inl rfl)
  | Ncimp =>
      simp only [TranslationMode.translate_gate] at h
      rw [bind_eq_some_iff] at h
      obtain ⟨m1, h1, h2⟩ := h
      obtain ⟨hn1, -, -, cr1, hg1⟩ := write_gate_some h1
      obtain ⟨hn2, -, -, cr2, hg2⟩ := write_gate_some h2
      refine ⟨?_, ?_, ?_⟩
      · rw [hn2, hn1]
        rfl
      · have l1 : m1.gates.length = m.gates.length + 1 := by rw [hg1]; simp [TranslationMode.allocate_normalized_id]
        have l2 : m'.gates.length = m1.gates.length + 1 := by rw [hg2]; simp
        show m'.gates.length = m.gates.length + 2
        omega
      · intro e he
        rw [hg2] at he
        rcases mem_append_one he with he | rfl
        · rw [hg1] at he
          rcases mem_append_one he with he | rfl
          · exact Or.inl he
          · exact Or.inr (Or.inr rfl)
        · exact Or.inr (Or.inl rfl)
  | Or =>
      simp only [TranslationMode.translate_gate] at h
      rw [bind_eq_some_iff] at h
      obtain ⟨m1, h1, h⟩ := h
      rw [bind_eq_some_iff] at h
      obtain ⟨m2, h2, h3⟩ := h
      obtain ⟨hn1, -, -, cr1, hg1⟩ := write_gate_some h1
      obtain ⟨hn2, -, -, cr2, hg2⟩ := write_gate_some h2
      obtain ⟨hn3, -, -, cr3, hg3⟩ := write_gate_some h3
      refine ⟨?_, ?_, ?_⟩
      · rw [hn3, hn2, hn1]
        show m.next_normalized_id + 1 + 1 = m.next_normalized_id + 2
        omega
      · have l1 : m1.gates.length = m.gates.length + 1 := by rw [hg1]; simp [TranslationMode.allocate_normalized_id]
        have l2 : m2.gates.length = m1.gates.length + 1 := by rw [hg2]; simp
        have l3 : m'.gates.length = m2.gates.length + 1 := by rw [hg3]; simp
        show m'.gates.length = m.gates.length + 3
        omega
      · intro e he
        rw [hg3] at he
        rcases mem_append_one he with he | rfl
        · rw [hg2] at he
          rcases mem_append_one he with he | rfl
          · rw [hg1] at he
            rcases mem_append_one he with he | rfl
            · exact Or.inl he
            · exact Or.inr (Or.inl rfl)
          · exact Or.inr (Or.inr rfl)
        · exact Or.inr (Or.inr rfl)
  | Nor =>
      simp only [TranslationMode.translate_gate] at h
      rw [bind_eq_some_iff] at h
      obtain ⟨m1, h1, h⟩ := h
      rw [bind_eq_some_iff] at h
      obtain ⟨m2, h2, h⟩ := h
      rw [bind_eq_some_iff] at h
      obtain ⟨m3, h3, h4⟩ := h
      obtain ⟨hn1, -, -, cr1, hg1⟩ := write_gate_some h1
      obtain ⟨hn2, -, -, cr2, hg2⟩ := write_gate_some h2
      obtain ⟨hn3, -, -, cr3, hg3⟩ := write_gate_some h3
      obtain ⟨hn4, -, -, cr4, hg4⟩ := write_gate_some h4
      refine ⟨?_, ?_, ?_⟩
      · rw [hn4, hn3, hn2, hn1]
        show m.next_normalized_id + 1 + 1 + 1 = m.next_normalized_id + 3
        omega
      · have l1 : m1.gates.length = m.gates.length + 1 := by rw [hg1]; simp [TranslationMode.allocate_normalized_id]
        have l2 : m2.gates.length = m1.gates.length + 1 := by rw [hg2]; simp
        have l3 : m3.gates.length = m2.gates.length + 1 := by rw [hg3]; simp
        have l4 : m'.gates.length = m3.gates.length + 1 := by rw [hg4]; simp
        show m'.gates.length = m.gates.length + 4
        omega
      · intro e he
        rw [hg4] at he
        rcases mem_append_one he with he | rfl
        · rw [hg3] at he
          rcases mem_append_one he with he | rfl
          · rw [hg2] at he
            rcases mem_append_one he with he | rfl
            · rw [hg1] at he
              rcases mem_append_one he with he | rfl
              · exact Or.inl he
              · exact Or.inr (Or.inl rfl)
            · exact Or.inr (Or.inr rfl)
          · exact Or.inr (Or.inr rfl)
        · exact Or.inr (Or.inr rfl)
  | Imp =>
      simp only [TranslationMode.translate_gate] at h
      rw [bind_eq_some_iff] at h
      obtain ⟨m1, h1, h⟩ := h
      rw [bind_eq_some_iff] at h
      obtain ⟨m2, h2, h⟩ := h
      rw [bind_eq_some_iff] at h
      obtain ⟨m3, h3, h4⟩ := h
      obtain ⟨hn1, -, -, cr1, hg1⟩ := write_gate_some h1
      obtain ⟨hn2, -, -, cr2, hg2⟩ := write_gate_some h2
      obtain ⟨hn3, -, -, cr3, hg3⟩ := write_gate_some h3
      obtain ⟨hn4, -, -, cr4, hg4⟩ := write_gate_some h4
      refine ⟨?_, ?_, ?_⟩
      · rw [hn4, hn3, hn2, hn1]
        show m.next_normalized_id + 1 + 1 + 1 = m.next_normalized_id + 3
        omega
      · have l1 : m1.gates.length = m.gates.length + 1 := by rw [hg1]; simp [TranslationMode.allocate_normalized_id]
        have l2 : m2.gates.length = m1.gates.length + 1 := by rw [hg2]; simp
        have l3 : m3.gates.length = m2.gates.length + 1 := by rw [hg3]; simp
        have l4 : m'.gates.length = m3.gates.length + 1 := by rw [hg4]; simp
        show m'.gates.length = m.gates.length + 4
        omega
      · intro e he
        rw [hg4] at he
        rcases mem_append_one he with he | rfl
        · rw [hg3] at he
          rcases mem_append_one he with he | rfl
          · rw [hg2] at he
            rcases mem_append_one he with he | rfl
            · rw [hg1] at he
              rcases mem_append_one he with he | rfl
              · exact Or.inl he
              · exact Or.inr (Or.inr rfl)
            · exact Or.inr (Or.inl rfl)
          · exact Or.inr (Or.inr rfl)
        · exact Or.inr (Or.inr rfl)
  | Cimp =>
      simp only [TranslationMode.translate_gate] at h
      rw [bind_eq_some_iff] at h
      obtain ⟨m1, h1, h⟩ := h
      rw [bind_eq_some_iff] at h
      obtain ⟨m2, h2, h⟩ := h
      rw [bind_eq_some_iff] at h
      obtain ⟨m3, h3, h4⟩ := h
      obtain ⟨hn1, -, -, cr1, hg1⟩ := write_gate_some h1
      obtain ⟨hn2, -, -, cr2, hg2⟩ := write_gate_some h2
      obtain ⟨hn3, -, -, cr3, hg3⟩ := write_gate_some h3
      obtain ⟨hn4, -, -, cr4, hg4⟩ := write_gate_some h4
      refine ⟨?_, ?_, ?_⟩
      · rw [hn4, hn3, hn2, hn1]
        show m.next_normalized_id + 1 + 1 + 1 = m.next_normalized_id + 3
        omega
      · have l1 : m1.gates.length = m.gates.length + 1 := by rw [hg1]; simp [TranslationMode.allocate_normalized_id]
        have l2 : m2.gates.length = m1.gates.length + 1 := by rw [hg2]; simp
        have l3 : m3.gates.length = m2.gates.length + 1 := by rw [hg3]; simp
        have l4 : m'.gates.length = m3.gates.length + 1 := by rw [hg4]; simp
        show m'.gates.length = m.gates.length + 4
        omega
      · intro e he
        rw [hg4] at he
        rcases mem_append_one he with he | rfl
        · rw [hg3] at he
          rcases mem_append_one he with he | rfl
          · rw [hg2] at he
            rcases mem_append_one he with he | rfl
            · rw [hg1] at he
              rcases mem_append_one he with he | rfl
              · exact Or.inl he
              · exact Or.inr (Or.inr rfl)
            · exact Or.inr (Or.inl rfl)
          · exact Or.inr (Or.inr rfl)
        · exact Or.inr (Or.inr rfl)

lemma allocate_id_next :
    ∀ (k : Nat) (m : CreditCollectionMode),
      (m.allocate_id k).next_normalized_id = m.next_normalized_id + k := by
  intro k
  induction k with
  | zero =>
      intro m
      rfl
  | succ k ih =>
      intro m
      rw [CreditCollectionMode.allocate_id, ih]
      have hw : ((m.allocate_wire 1).2).next_normalized_id = m.next_normalized_id + 1 := rfl
      omega

lemma evaluate_gate_next (m : CreditCollectionMode) (g : Gate) :
    (m.evaluate_gate g).next_normalized_id = m.next_normalized_id + extra g.gate_type := by
  obtain ⟨gt, a, b, c⟩ := g
  cases gt <;>
    simp [CreditCollectionMode.evaluate_gate, allocate_id_next, extra]

lemma foldlM_translate_props :
    ∀ (gs : List Gate) (t t' : TranslationMode),
      gs.foldlM TranslationMode.translate_gate t = some t' →
      t'.next_normalized_id
          = t.next_normalized_id + (gs.map (fun g => extra g.gate_type)).sum ∧
      ∀ e ∈ t'.gates, e ∈ t.gates ∨
        e.gate_type = GateTypeCode.AND ∨ e.gate_type = GateTypeCode.XOR := by
  intro gs
  induction gs with
  | nil =>
      intro t t' h
      simp only [List.foldlM_nil] at h
      cases h
      exact ⟨by simp, fun e he => Or.inl he⟩
  | cons g gs ih =>
      intro t t' h
      simp only [List.foldlM_cons] at h
      rw [bind_eq_some_iff] at h
      obtain ⟨t1, h1, h2⟩ := h
      obtain ⟨hn1, _, hmem1⟩ := translate_gate_some h1
      obtain ⟨hn2, hmem2⟩ := ih t1 t' h2
      constructor
      · rw [hn2, hn1]
        simp [Nat.add_assoc]
      · intro e he
        rcases hmem2 e he with he1 | hty
        · exact hmem1 e he1
        · exact Or.inr hty

lemma foldl_evaluate_next :
    ∀ (gs : List Gate) (c : CreditCollectionMode),
      (gs.foldl CreditCollectionMode.evaluate_gate c).next_normalized_id
        = c.next_normalized_id + (gs.map (fun g => extra g.gate_type)).sum := by
  intro gs
  induction gs with
  | nil =>
      intro c
      simp
  | cons g gs ih =>
      intro c
      rw [List.foldl_cons, ih, evaluate_gate_next]
      simp [Nat.add_assoc]

/-- C1: processing a source gate of kind k advances the credit-collection
allocator by exactly extra(k) slots beyond the already-allocated output wire;
translating the same kind advances the translation allocator by exactly
extra(k) fresh temporaries and emits exactly 1 + extra(k) gates; consequently
the two normalized-id allocators stay equal over any identical sequence of
source gates. -/
theorem expansion_exactness :
    (∀ (m : CreditCollectionMode) (g : Gate),
      (m.evaluate_gate g).next_normalized_id
        = m.next_normalized_id + extra g.gate_type) ∧
    (∀ (m m' : TranslationMode) (g : Gate), m.translate_gate g = some m' →
      m'.next_normalized_id = m.next_normalized_id + extra g.gate_type ∧
      m'.gates.length = m.gates.length + (1 + extra g.gate_type)) ∧
    (∀ (gs : List Gate) (c : CreditCollectionMode) (t t' : TranslationMode),
      c.next_normalized_id = t.next_normalized_id →
      gs.foldlM TranslationMode.translate_gate t = some t' →
      (gs.foldl CreditCollectionMode.evaluate_gate c).next_normalized_id
        = t'.next_normalized_id) := by
  refine ⟨evaluate_gate_next, ?_, ?_⟩
  · intro m m' g h
    exact ⟨(translate_gate_some h).1, (translate_gate_some h).2.1⟩
  · intro gs c t t' heq h
    rw [foldl_evaluate_next, heq, (foldlM_translate_props gs t t' h).1]

/-- Witness for C1: both allocators start at 5 and both end at 8 after one
IMP gate. -/
theorem expansion_exactness_witness :
    ([({ gate_type := .Imp, wire_a := 2, wire_b := 3, wire_c := 4 } : Gate)].foldl
        CreditCollectionMode.evaluate_gate
        (CreditCollectionMode.mk [] 5 2 0)).next_normalized_id = 8 := by
  have h := expansion_exactness.2.2
    [({ gate_type := .Imp, wire_a := 2, wire_b := 3, wire_c := 4 } : Gate)]
    (CreditCollectionMode.mk [] 5 2 0)
    (TranslationMode.mk (List.replicate 9 0) 5 0 1 [])
    (TranslationMode.mk (List.replicate 9 0) 8 0 1
      [GateV5a.mk 2 1 5 0 GateTypeCode.XOR, GateV5a.mk 5 3 6 0 GateTypeCode.AND,
       GateV5a.mk 6 5 7 0 GateTypeCode.XOR, GateV5a.mk 7 3 4 0 GateTypeCode.XOR])
    rfl (by decide)
  exact h

/-- C7: every gate the translation mode hands to the writer over any run from
a fresh mode carries gate-type code AND or XOR; no other gate type is ever
emitted. -/
theorem gate_kind_closure :
    ∀ (creds : List Nat) (gs : List Gate) (t' : TranslationMode),
      gs.foldlM TranslationMode.translate_gate (TranslationMode.new creds) = some t' →
      ∀ e ∈ t'.gates,
        e.gate_type = GateTypeCode.AND ∨ e.gate_type = GateTypeCode.XOR := by
  intro creds gs t' h e he
  rcases (foldlM_translate_props gs _ t' h).2 e he with hmem | hty
  · exact absurd hmem (by
      simp [TranslationMode.new, TranslationMode.allocate_normalized_id])
  · exact hty

/-- Witness for C7: the single gate emitted for AND a b -> c carries code
AND. -/
theorem gate_kind_closure_witness :
    (GateV5a.mk 2 2 2 0 GateTypeCode.AND).gate_type = GateTypeCode.AND ∨
    (GateV5a.mk 2 2 2 0 GateTypeCode.AND).gate_type = GateTypeCode.XOR := by
  apply gate_kind_closure [0, 0, 0]
    [({ gate_type := .And, wire_a := 2, wire_b := 2, wire_c := 2 } : Gate)]
    (TranslationMode.mk [0, 0, 0] 2 0 1 [GateV5a.mk 2 2 2 0 GateTypeCode.AND])
    (by decide)
  decide

end G16
